import Mathlib

/-!
Shallow embedding of the Aviary trusted-worklet auction server: the auction
driver (`server/ad_auctions.cc`), the function repository
(`server/function_repository.cc`), the source fetcher
(`server/function_source.cc`) and the script engine wrapper
(`function/bidding_function.cc`), together with theorems checking the
natural-language specification against it.

Modelling conventions:
* `absl::Status` becomes `Status` (a code plus a message) and
  `absl::StatusOr<T>` becomes `Except Status T`.
* protobuf `double` fields are modelled as `Rat`; the server never performs
  arithmetic on them, it only copies them and compares desirability scores,
  so any linearly ordered field is a faithful model of the order behaviour
  (IEEE special values are outside the scope of the embedding).
* `google.protobuf.Struct` / `google.protobuf.Value` payloads are opaque
  JSON-like values; the server only copies them around, so they are a type
  parameter `V`.  protobuf message-typed fields have explicit presence in
  proto3, hence `Option`; map fields become association lists.
* a compiled V8 script is modelled by its invocation behaviour
  (`InvokeFunctionOnce` followed by `ConvertOutput`), an oracle from the
  input message to `Except Status` of the output message; the embedded
  JavaScript engine itself is outside the scope of the embedding.
-/

namespace Aviary

/-- Canonical absl status codes used by the server. -/
inductive StatusCode where
  | ok
  | invalidArgument
  | notFound
  | permissionDenied
  | unavailable
  | failedPrecondition
  | internalError
  deriving DecidableEq, Repr

/-- Model of `absl::Status`: an error code paired with a human-readable
message (`absl::NotFoundError(...)` etc.). -/
structure Status where
  code : StatusCode
  message : String
  deriving DecidableEq, Repr

instance {ε α : Type} [DecidableEq ε] [DecidableEq α] : DecidableEq (Except ε α) :=
  fun x y =>
    match x, y with
    | .error a, .error b => decidable_of_iff (a = b) (by simp)
    | .error _, .ok _ => .isFalse (fun h => Except.noConfusion h)
    | .ok _, .error _ => .isFalse (fun h => Except.noConfusion h)
    | .ok a, .ok b => decidable_of_iff (a = b) (by simp)

/-- Model of `aviary.InterestGroupAd` (proto/aviary.proto). -/
structure InterestGroupAd (V : Type) where
  render_url : String
  ad_metadata : Option V
  deriving DecidableEq

/-- Model of `aviary.InterestGroup`, the submessage of the bidding-function
input (proto/aviary.proto). -/
structure InterestGroup (V : Type) where
  owner : String
  name : String
  bidding_logic_url : String
  ads : List (InterestGroupAd V)
  daily_update_url : String
  trusted_bidding_signals_url : String
  trusted_bidding_signals_keys : List String
  user_bidding_signals : Option V
  deriving DecidableEq

/-- Model of `aviary.InterestGroupAuctionState` (proto/aviary.proto). -/
structure InterestGroupAuctionState (V : Type) where
  owner : String
  name : String
  bidding_logic_url : String
  trusted_bidding_signals : List (String × V)
  user_bidding_signals : Option V
  ads : List (InterestGroupAd V)
  browser_signals : Option V
  deriving DecidableEq

/-- Model of `aviary.BiddingFunctionInput` (proto/bidding_function.proto). -/
structure BiddingFunctionInput (V : Type) where
  interest_group : Option (InterestGroup V)
  auction_signals : Option V
  per_buyer_signals : Option V
  trusted_bidding_signals : List (String × V)
  browser_signals : Option V
  deriving DecidableEq

/-- Model of `aviary.BiddingFunctionOutput` (proto/bidding_function.proto). -/
structure BiddingFunctionOutput (V : Type) where
  ad : Option V
  bid : Rat
  render_url : String
  deriving DecidableEq

instance {V : Type} : Inhabited (BiddingFunctionOutput V) := ⟨⟨none, 0, ""⟩⟩

/-- Model of `aviary.AuctionConfiguration` (proto/bidding_function.proto). -/
structure AuctionConfiguration (V : Type) where
  seller : String
  decision_logic_url : String
  interest_group_buyers : List String
  additional_bids : List V
  seller_signals : Option V
  auction_signals : Option V
  per_buyer_signals : List (String × V)
  deriving DecidableEq

/-- Model of `aviary.AdScoringFunctionInput` (proto/bidding_function.proto). -/
structure AdScoringFunctionInput (V : Type) where
  ad_metadata : Option V
  bid : Rat
  auction_config : Option (AuctionConfiguration V)
  trusted_scoring_signals : Option V
  browser_signals : Option V
  deriving DecidableEq

/-- Model of `aviary.AdScoringFunctionOutput` (proto/bidding_function.proto). -/
structure AdScoringFunctionOutput where
  desirability_score : Rat
  deriving DecidableEq, Repr

instance : Inhabited AdScoringFunctionOutput := ⟨⟨0⟩⟩

/-- Model of `aviary.ScoredInterestGroupBid` (proto/aviary.proto). -/
structure ScoredInterestGroupBid where
  render_url : String
  interest_group_owner : String
  interest_group_name : String
  bid_price : Rat
  desirability_score : Rat
  deriving DecidableEq, Repr

/-- Model of `aviary.RunAdAuctionRequest` (proto/aviary.proto).  The
`auction_configuration` submessage is read unconditionally by the server
(proto3 reads of an absent submessage yield the default instance), so it is
kept as a plain field. -/
structure RunAdAuctionRequest (V : Type) where
  interest_groups : List (InterestGroupAuctionState V)
  auction_configuration : AuctionConfiguration V
  trusted_scoring_signals : List (String × V)
  deriving DecidableEq

/-- Model of `aviary.RunAdAuctionResponse` (proto/aviary.proto):
`winning_bid` is empty if no interest group bid won. -/
structure RunAdAuctionResponse where
  winning_bid : Option ScoredInterestGroupBid
  losing_bids : List ScoredInterestGroupBid
  deriving DecidableEq, Repr

/-- Invocation behaviour of one compiled script: `InvokeFunctionOnce`
followed by `ConvertOutput` in function/bidding_function.cc, abstracted as
an oracle on one input message. -/
def CompiledFunction (Input Output : Type) : Type := Input → Except Status Output

/-- Model of `BiddingFunction::BatchInvoke` (function/bidding_function.cc,
lines 398-418): inputs are processed sequentially in the given order, each
output is appended, and the first failure is returned with no partial
results. -/
def BatchInvoke {Input Output : Type} (f : CompiledFunction Input Output) :
    List Input → Except Status (List Output)
  | [] => .ok []
  | input :: rest => do
      let output ← f input
      let outputs ← BatchInvoke f rest
      .ok (output :: outputs)

/-- Model of `FunctionRepository` (server/function_repository.h): two hash
maps keyed by URI whose values are owning pointers to compiled functions;
`none` models the `nullptr` placeholder inserted for a script that failed to
compile at the last refresh.  The hash maps are modelled as association
lists with lookup by key (iteration order of the maps is never observed by
the server). -/
structure FunctionRepository (V : Type) where
  bidding_functions :
    List (String × Option (CompiledFunction (BiddingFunctionInput V) (BiddingFunctionOutput V)))
  ad_scoring_functions :
    List (String × Option (CompiledFunction (AdScoringFunctionInput V) AdScoringFunctionOutput))

/-- Model of `FunctionRepository::GetBiddingFunction`
(server/function_repository.cc, lines 21-35). -/
def FunctionRepository.GetBiddingFunction {V : Type} (repo : FunctionRepository V)
    (bidding_function_uri : String) :
    Except Status (CompiledFunction (BiddingFunctionInput V) (BiddingFunctionOutput V)) :=
  match repo.bidding_functions.lookup bidding_function_uri with
  | none =>
      .error ⟨.notFound, "Bidding function " ++ bidding_function_uri ++ " not found"⟩
  | some none =>
      .error ⟨.unavailable, "Bidding function " ++ bidding_function_uri ++ " is not available"⟩
  | some (some f) => .ok f

/-- Model of `FunctionRepository::GetAdScoringFunction`
(server/function_repository.cc, lines 37-51). -/
def FunctionRepository.GetAdScoringFunction {V : Type} (repo : FunctionRepository V)
    (ad_scoring_function_uri : String) :
    Except Status (CompiledFunction (AdScoringFunctionInput V) AdScoringFunctionOutput) :=
  match repo.ad_scoring_functions.lookup ad_scoring_function_uri with
  | none =>
      .error ⟨.notFound, "Ad scoring function " ++ ad_scoring_function_uri ++ " not found"⟩
  | some none =>
      .error ⟨.unavailable, "Ad scoring function " ++ ad_scoring_function_uri ++ " is not available"⟩
  | some (some f) => .ok f

/-- Model of `AdAuctionsImpl::RunGenerateBidFunction` (server/ad_auctions.cc,
lines 304-312): look up the bidding function, invoke it on a one-element
batch and return `bids.back()` (modelled by `getLastD` with the
never-used default; a successful one-element batch is never empty). -/
def RunGenerateBidFunction {V : Type} (repo : FunctionRepository V)
    (bidding_logic_url : String) (input : BiddingFunctionInput V) :
    Except Status (BiddingFunctionOutput V) := do
  let f ← repo.GetBiddingFunction bidding_logic_url
  let bids ← BatchInvoke f [input]
  .ok (bids.getLastD default)

/-- Model of `AdAuctionsImpl::RunScoreAdFunction` (server/ad_auctions.cc,
lines 314-322). -/
def RunScoreAdFunction {V : Type} (repo : FunctionRepository V)
    (ad_scoring_logic_url : String) (input : AdScoringFunctionInput V) :
    Except Status AdScoringFunctionOutput := do
  let f ← repo.GetAdScoringFunction ad_scoring_logic_url
  let output ← BatchInvoke f [input]
  .ok (output.getLastD default)

/-- Model of `CreateBiddingFunctionInput` (server/ad_auctions.cc, lines
67-97): projects interest-group fields and the per-buyer signals keyed by
the owner (an absent key leaves the field unset). -/
def CreateBiddingFunctionInput {V : Type} (interest_group_state : InterestGroupAuctionState V)
    (auction_configuration : AuctionConfiguration V) : BiddingFunctionInput V :=
  { per_buyer_signals := auction_configuration.per_buyer_signals.lookup interest_group_state.owner
    auction_signals := auction_configuration.auction_signals
    interest_group := some
      { name := interest_group_state.name
        owner := interest_group_state.owner
        bidding_logic_url := interest_group_state.bidding_logic_url
        ads := interest_group_state.ads
        daily_update_url := ""
        trusted_bidding_signals_url := ""
        trusted_bidding_signals_keys := []
        user_bidding_signals := interest_group_state.user_bidding_signals }
    browser_signals := interest_group_state.browser_signals
    trusted_bidding_signals := interest_group_state.trusted_bidding_signals }

/-- Model of `CreateAdScoringInputs` (server/ad_auctions.cc, lines 99-116):
browser signals are not provided (open TODO in the source). -/
def CreateAdScoringInputs {V : Type} (output : BiddingFunctionOutput V)
    (auction_configuration : AuctionConfiguration V)
    (trusted_scoring_signals : List (String × V)) : AdScoringFunctionInput V :=
  { auction_config := some auction_configuration
    ad_metadata := output.ad
    bid := output.bid
    trusted_scoring_signals := trusted_scoring_signals.lookup output.render_url
    browser_signals := none }

/-- Model of `GetScoredInterestGroupBid` (server/ad_auctions.cc, lines
118-130). -/
def GetScoredInterestGroupBid {V : Type} (interest_group : InterestGroupAuctionState V)
    (bid : BiddingFunctionOutput V) (scored_ad : AdScoringFunctionOutput) :
    ScoredInterestGroupBid :=
  { interest_group_owner := interest_group.owner
    interest_group_name := interest_group.name
    bid_price := bid.bid
    render_url := bid.render_url
    desirability_score := scored_ad.desirability_score }

/-- Model of the candidate loop of `AdAuctionsImpl::RunAdAuction`
(server/ad_auctions.cc, lines 255-288): skip owners outside
`interest_group_buyers`, skip candidates whose bidding fails, fail the
whole call on an ad-scoring failure, and otherwise accumulate scored bids
in input order. -/
def CollectScoredBids {V : Type} (repo : FunctionRepository V)
    (auction_configuration : AuctionConfiguration V)
    (trusted_scoring_signals : List (String × V)) :
    List (InterestGroupAuctionState V) → Except Status (List ScoredInterestGroupBid)
  | [] => .ok []
  | interest_group :: rest =>
    if auction_configuration.interest_group_buyers.contains interest_group.owner then
      match RunGenerateBidFunction repo interest_group.bidding_logic_url
          (CreateBiddingFunctionInput interest_group auction_configuration) with
      | .error _ =>
          CollectScoredBids repo auction_configuration trusted_scoring_signals rest
      | .ok bidding_result =>
        match RunScoreAdFunction repo auction_configuration.decision_logic_url
            (CreateAdScoringInputs bidding_result auction_configuration
              trusted_scoring_signals) with
        | .error e => .error e
        | .ok ad_scoring_result => do
            let scored_bids ←
              CollectScoredBids repo auction_configuration trusted_scoring_signals rest
            .ok (GetScoredInterestGroupBid interest_group bidding_result ad_scoring_result
              :: scored_bids)
    else
      CollectScoredBids repo auction_configuration trusted_scoring_signals rest

/-- Postcondition of `absl::c_sort(scored_bids, comparator)` with the
comparator `first.desirability_score() > second.desirability_score()`
(server/ad_auctions.cc, lines 289-291).  `absl::c_sort` forwards to
`std::sort`, whose contract guarantees only that the result is a
permutation of the input that is sorted with respect to the comparator;
the relative order of elements with equal desirability scores is
unspecified, so the sort is modelled as a relation. -/
def CSortOutcome (scored_bids sorted_bids : List ScoredInterestGroupBid) : Prop :=
  scored_bids.Perm sorted_bids ∧
    sorted_bids.Pairwise (fun a b => b.desirability_score ≤ a.desirability_score)

/-- Model of the winner/loser split of `AdAuctionsImpl::RunAdAuction`
(server/ad_auctions.cc, lines 292-301): if the sorted list is non-empty and
its front score is strictly positive, the front becomes the winning bid and
the rest become losing bids; otherwise the whole sorted list is returned as
losing bids. -/
def SplitWinner (sorted_bids : List ScoredInterestGroupBid) : RunAdAuctionResponse :=
  match sorted_bids with
  | [] => ⟨none, []⟩
  | front :: rest =>
    if 0 < front.desirability_score then ⟨some front, rest⟩ else ⟨none, front :: rest⟩

/-- Behaviour of `AdAuctionsImpl::RunAdAuction` (server/ad_auctions.cc,
lines 251-302) as a relation between the request and the RPC result,
nondeterministic only in the unspecified order of equal-score bids after
`std::sort`.  An error from the candidate loop is returned as the RPC
status; otherwise the call returns OK with the split response. -/
def RunAdAuctionOutcome {V : Type} (repo : FunctionRepository V)
    (request : RunAdAuctionRequest V)
    (result : Except Status RunAdAuctionResponse) : Prop :=
  match CollectScoredBids repo request.auction_configuration
      request.trusted_scoring_signals request.interest_groups with
  | .error e => result = .error e
  | .ok scored_bids =>
      ∃ sorted_bids, CSortOutcome scored_bids sorted_bids ∧
        result = .ok (SplitWinner sorted_bids)

/-- Bids of a response in response order: the winning bid (when present)
followed by the losing bids; `RunAdAuctionResponse` lists the winner first. -/
def ResponseBids (response : RunAdAuctionResponse) : List ScoredInterestGroupBid :=
  (match response.winning_bid with
   | some w => [w]
   | none => []) ++ response.losing_bids

/-- Model of `FunctionSpecification` (server/function_source.h): a URI and
an optional inline source (`absl::optional<std::string> source_code`). -/
structure FunctionSpecification where
  uri : String
  source_code : Option String
  deriving DecidableEq, Repr

/-- Model of `Configuration` (server/ad_auctions.h, lines 42-45). -/
structure Configuration where
  bidding_function_specs : List FunctionSpecification
  ad_scoring_function_specs : List FunctionSpecification
  deriving DecidableEq, Repr

/-- Result of one `httplib::Client::Get`: an HTTP status code and a body. -/
structure HttpResponse where
  status : Int
  body : String
  deriving DecidableEq, Repr

/-- Abstraction of the external HTTP stack (`httplib::Client(...).Get(...)`
in server/function_source.cc): an oracle from the scheme-host-port string
and the path to an optional response, `none` modelling a transport failure
(a null `httplib::Result`). -/
def HttpOracle : Type := String → String → Option HttpResponse

/-- Model of `TranslateResponse` (server/function_source.cc, lines 62-79):
the switch over the HTTP status code. -/
def TranslateResponse (res : HttpResponse) : Except Status String :=
  if res.status = 200 then .ok res.body
  else if res.status = 400 then
    .error ⟨.invalidArgument, "The server returned 400 Bad Request status code."⟩
  else if res.status = 401 ∨ res.status = 403 then
    .error ⟨.permissionDenied,
      "Unauthenticated or unauthorized request. HTTP status code:" ++ toString res.status⟩
  else if res.status = 404 then
    .error ⟨.notFound, "Resource at the URL was not found."⟩
  else .error ⟨.internalError, "Unable to fetch a URL"⟩

/-- Character class `[a-z]` of the URL regular expression in
`FunctionSource::GetFunctionCode` (server/function_source.cc). -/
def IsSchemeChar (c : Char) : Bool := 'a' ≤ c && c ≤ 'z'

/-- Character class `[^:/?#]` (the host part of the URL regular
expression). -/
def IsHostChar (c : Char) : Bool := !(c = ':' || c = '/' || c = '?' || c = '#')

/-- Character class `\d` (the port part of the URL regular expression). -/
def IsPortChar (c : Char) : Bool := '0' ≤ c && c ≤ '9'

/-- Character class of `.` in the path group `(/.*)?`: in ECMAScript regular
expressions `.` matches everything except a line terminator (the embedding
covers the ASCII line terminators). -/
def IsPathChar (c : Char) : Bool := !(c = '\n' || c = '\r')

/-- Groups extracted by the URL regular expression
`^((?:([a-z]+)://)?([^:/?#]+)(?::(\d+))?)(/.*)?` of
`FunctionSource::GetFunctionCode` (server/function_source.cc, lines
93-107): group 1 (scheme, host and optional port), group 2 (the scheme,
empty when absent) and group 5 (the path, empty when absent). -/
structure ParsedUrl where
  scheme_host_port : String
  scheme : String
  path : String
  deriving DecidableEq, Repr

/-- Matching of the anchored URL regular expression against a URI, on the
character list.  All quantifiers in the pattern are forced: the scheme
letters, host characters and port digits each take their maximal run (no
shorter run can lead to an overall match because the characters that end
each run cannot start the following group), so the match is computed
deterministically. -/
def ParseUrlChars (cs : List Char) : Option ParsedUrl :=
  let schemeRun := cs.takeWhile IsSchemeChar
  let afterLetters := cs.dropWhile IsSchemeChar
  let (scheme, afterScheme) :=
    match afterLetters with
    | ':' :: '/' :: '/' :: rest =>
        if schemeRun.isEmpty then ([], cs) else (schemeRun, rest)
    | _ => ([], cs)
  let host := afterScheme.takeWhile IsHostChar
  let afterHost := afterScheme.dropWhile IsHostChar
  if host.isEmpty then none
  else
    let portStep : Option (List Char × List Char) :=
      match afterHost with
      | ':' :: rest =>
          let digits := rest.takeWhile IsPortChar
          if digits.isEmpty then none else some (':' :: digits, rest.dropWhile IsPortChar)
      | rest => some ([], rest)
    match portStep with
    | none => none
    | some (port, afterPort) =>
      match afterPort with
      | [] =>
          some { scheme_host_port :=
                   String.mk ((if scheme.isEmpty then [] else scheme ++ [':', '/', '/'])
                     ++ host ++ port)
                 scheme := String.mk scheme
                 path := "" }
      | '/' :: restPath =>
          if restPath.all IsPathChar then
            some { scheme_host_port :=
                     String.mk ((if scheme.isEmpty then [] else scheme ++ [':', '/', '/'])
                       ++ host ++ port)
                   scheme := String.mk scheme
                   path := String.mk ('/' :: restPath) }
          else none
      | _ => none

/-- Matching of the URL regular expression against a URI string. -/
def ParseUrl (uri : String) : Option ParsedUrl := ParseUrlChars uri.data

/-- Model of `FunctionSource::GetFunctionCode` (server/function_source.cc,
lines 87-135).  The source's `m.size() < kPathGroup` guard is dead code (a
successful `std::regex_match` always exposes all capture groups) and is
omitted. -/
def GetFunctionCode (http : HttpOracle) (specification : FunctionSpecification) :
    Except Status String :=
  match ParseUrl specification.uri with
  | none => .error ⟨.invalidArgument, "Not a valid URL: " ++ specification.uri⟩
  | some parsed =>
    if parsed.scheme = "" then
      .error ⟨.invalidArgument, "Not a valid remote URL: " ++ specification.uri⟩
    else if parsed.scheme = "local" then
      match specification.source_code with
      | none =>
          .error ⟨.invalidArgument, "Function source code not provided for local function."⟩
      | some source_code => .ok source_code
    else
      match http parsed.scheme_host_port parsed.path with
      | none => .error ⟨.internalError, "Unable to fetch a URL"⟩
      | some res => TranslateResponse res

/-- Accumulating loop of `GetFunctionSourceCodes` (server/ad_auctions.cc,
lines 132-147): fetch each specification's code and insert it under its URI,
failing with invalid-argument when the URI was already inserted.  The
`std::map` is modelled as the association list of its bindings (it is
ordered by key in the source, but only lookups and iteration over the
unique bindings are ever observed). -/
def GetFunctionSourceCodesAux (http : HttpOracle) (functions_code : List (String × String)) :
    List FunctionSpecification → Except Status (List (String × String))
  | [] => .ok functions_code
  | specification :: rest =>
    match GetFunctionCode http specification with
    | .error e => .error e
    | .ok source_code =>
      if (functions_code.lookup specification.uri).isSome then
        .error ⟨.invalidArgument,
          "Function '" ++ specification.uri
            ++ "' defined more than once in the configuration file."⟩
      else
        GetFunctionSourceCodesAux http (functions_code ++ [(specification.uri, source_code)])
          rest

/-- Model of `GetFunctionSourceCodes` (server/ad_auctions.cc, lines
132-147). -/
def GetFunctionSourceCodes (http : HttpOracle)
    (specifications : List FunctionSpecification) : Except Status (List (String × String)) :=
  GetFunctionSourceCodesAux http [] specifications

/-- Abstraction of `FledgeBiddingFunction::Create` /
`FledgeSapiBiddingFunction::Create` (and their ad-scoring counterparts):
compiling a script source in V8 either yields a compiled function or fails
with a status; both the sandboxed and the in-process engine sit behind the
same interface, so a single oracle from source code to the result models
either branch of the `use_sandbox2` flag. -/
def CreateOracle (Input Output : Type) : Type :=
  String → Except Status (CompiledFunction Input Output)

/-- Model of `CreateFunctionRepository` (server/ad_auctions.cc, lines
149-205): fetch all configured sources (any fetch failure or duplicate URI
fails the whole build), then compile each source, inserting the compiled
function on success and the `nullptr` placeholder (here `none`) on
failure. -/
def CreateFunctionRepository {V : Type}
    (createBidder : CreateOracle (BiddingFunctionInput V) (BiddingFunctionOutput V))
    (createScorer : CreateOracle (AdScoringFunctionInput V) AdScoringFunctionOutput)
    (http : HttpOracle) (configuration : Configuration) :
    Except Status (FunctionRepository V) := do
  let bidding_function_source_codes ←
    GetFunctionSourceCodes http configuration.bidding_function_specs
  let ad_scoring_function_source_codes ←
    GetFunctionSourceCodes http configuration.ad_scoring_function_specs
  .ok { bidding_functions :=
          bidding_function_source_codes.map (fun p => (p.1, (createBidder p.2).toOption))
        ad_scoring_functions :=
          ad_scoring_function_source_codes.map (fun p => (p.1, (createScorer p.2).toOption)) }

/-- Model of `AdAuctionsImpl::RefreshFunctionRepository`
(server/ad_auctions.cc, lines 351-360) as a transformer of the published
repository: build a candidate repository and swap it in on success; on any
failure keep the previous repository. -/
def RefreshFunctionRepository {V : Type}
    (createBidder : CreateOracle (BiddingFunctionInput V) (BiddingFunctionOutput V))
    (createScorer : CreateOracle (AdScoringFunctionInput V) AdScoringFunctionOutput)
    (http : HttpOracle) (configuration : Configuration)
    (current : FunctionRepository V) : FunctionRepository V :=
  match CreateFunctionRepository createBidder createScorer http configuration with
  | .error _ => current
  | .ok fresh => fresh

/-- Interleaving model of the candidate loop of `RunAdAuction` under a
concurrently refreshing repository.  `repoAt k` is the repository pointer
read by the `k`-th acquisition of `function_repository_mutex_`: in the
source each call to `RunGenerateBidFunction` and to `RunScoreAdFunction`
takes its own `absl::ReaderMutexLock` and re-reads `function_repository_`
(server/ad_auctions.cc, lines 304-322), and the refresher may swap the
pointer under the writer lock between any two of these acquisitions
(lines 351-360), so each lock acquisition observes the repository current
at that moment.  Skipped owners acquire no lock; a bidder call consumes one
acquisition, a scorer call one more. -/
def CollectScoredBidsAt {V : Type} (repoAt : Nat → FunctionRepository V)
    (auction_configuration : AuctionConfiguration V)
    (trusted_scoring_signals : List (String × V)) :
    List (InterestGroupAuctionState V) → Nat → Except Status (List ScoredInterestGroupBid)
  | [], _ => .ok []
  | interest_group :: rest, k =>
    if auction_configuration.interest_group_buyers.contains interest_group.owner then
      match RunGenerateBidFunction (repoAt k) interest_group.bidding_logic_url
          (CreateBiddingFunctionInput interest_group auction_configuration) with
      | .error _ =>
          CollectScoredBidsAt repoAt auction_configuration trusted_scoring_signals rest (k + 1)
      | .ok bidding_result =>
        match RunScoreAdFunction (repoAt (k + 1)) auction_configuration.decision_logic_url
            (CreateAdScoringInputs bidding_result auction_configuration
              trusted_scoring_signals) with
        | .error e => .error e
        | .ok ad_scoring_result => do
            let scored_bids ←
              CollectScoredBidsAt repoAt auction_configuration trusted_scoring_signals rest
                (k + 2)
            .ok (GetScoredInterestGroupBid interest_group bidding_result ad_scoring_result
              :: scored_bids)
    else
      CollectScoredBidsAt repoAt auction_configuration trusted_scoring_signals rest k

/-- State of a V8 promise as observed by `promise->State()`
(function/bidding_function.cc): pending, fulfilled with a result, or
rejected with the stringified rejection value. -/
inductive PromiseState (V : Type) where
  | pending
  | fulfilled (result : V)
  | rejected (text : String)
  deriving DecidableEq, Repr

/-- Model of the draining loop of `WaitForPromise`
(function/bidding_function.cc, lines 116-121): while the promise is pending
and the wall-clock deadline has not elapsed, perform one microtask
checkpoint.  The opaque engine state is `σ`, one
`PerformMicrotaskCheckpoint` is `step`, the promise state read from the
engine is `view`, and the number of iterations the wall clock permits
before `absl::Now() - start < wait_duration` fails (default wait duration
50 ms) is the budget `n`. -/
def DrainMicrotasks {σ V : Type} (step : σ → σ) (view : σ → PromiseState V) :
    Nat → σ → σ
  | 0, s => s
  | n + 1, s =>
    match view s with
    | .pending => DrainMicrotasks step view n (step s)
    | _ => s

/-- Model of `WaitForPromise` (function/bidding_function.cc, lines
114-135): drain microtasks, then switch on the final promise state.  The
`default` arm of the source switch is unreachable (the three states are
exhaustive) and is omitted. -/
def WaitForPromise {σ V : Type} (step : σ → σ) (view : σ → PromiseState V)
    (budget : Nat) (s : σ) : Except Status V :=
  match view (DrainMicrotasks step view budget s) with
  | .fulfilled result => .ok result
  | .rejected text =>
      .error ⟨.invalidArgument, "Async javascript function failed: " ++ text⟩
  | .pending => .error ⟨.invalidArgument, "Async javascript function timed out."⟩

/-- Default value of the `bidding_function_async_wait` flag
(function/bidding_function.cc, lines 28-29): `absl::Milliseconds(50)`. -/
def BiddingFunctionAsyncWaitDefaultMillis : Nat := 50

/-!
Concrete fixtures used to instantiate theorems at explicit inputs.  The
opaque signal payloads are instantiated at `Unit`.
-/

/-- Fixture: a bidder whose single invocation always returns bid 2 with
render URL "render". -/
def testBidder : CompiledFunction (BiddingFunctionInput Unit) (BiddingFunctionOutput Unit) :=
  fun _ => .ok ⟨none, 2, "render"⟩

/-- Fixture: a scorer that scores every ad with its bid. -/
def testScorer : CompiledFunction (AdScoringFunctionInput Unit) AdScoringFunctionOutput :=
  fun input => .ok ⟨input.bid⟩

/-- Fixture: a scorer whose invocation always fails. -/
def testFailingScorer : CompiledFunction (AdScoringFunctionInput Unit) AdScoringFunctionOutput :=
  fun _ => .error ⟨.invalidArgument, "scorer threw"⟩

/-- Fixture: a repository holding one bidder and one scorer. -/
def testRepo : FunctionRepository Unit :=
  ⟨[("bidder.js", some testBidder)], [("scorer.js", some testScorer)]⟩

/-- Fixture: a repository holding only the bidder. -/
def testRepoBidderOnly : FunctionRepository Unit :=
  ⟨[("bidder.js", some testBidder)], []⟩

/-- Fixture: a repository holding only the scorer. -/
def testRepoScorerOnly : FunctionRepository Unit :=
  ⟨[], [("scorer.js", some testScorer)]⟩

/-- Fixture: a repository holding the bidder and a failing scorer. -/
def testRepoFailingScorer : FunctionRepository Unit :=
  ⟨[("bidder.js", some testBidder)], [("scorer.js", some testFailingScorer)]⟩

/-- Fixture: an empty repository. -/
def testRepoEmpty : FunctionRepository Unit := ⟨[], []⟩

/-- Fixture: an auction configuration allowing the buyer "owner" and naming
the scorer "scorer.js". -/
def testConfig : AuctionConfiguration Unit :=
  ⟨"seller", "scorer.js", ["owner"], [], none, none, []⟩

/-- Fixture: an interest group of the allowed owner using "bidder.js". -/
def testIG : InterestGroupAuctionState Unit :=
  ⟨"owner", "ig", "bidder.js", [], none, [], none⟩

/-- Fixture: an interest group whose owner is not an allowed buyer. -/
def testIGOtherOwner : InterestGroupAuctionState Unit :=
  ⟨"other", "outsider", "bidder.js", [], none, [], none⟩

/-- Fixture: a one-candidate auction request. -/
def testRequest : RunAdAuctionRequest Unit := ⟨[testIG], testConfig, []⟩

/-- Fixture: the scored bid the one-candidate auction produces. -/
def testScoredBid : ScoredInterestGroupBid := ⟨"render", "owner", "ig", 2, 2⟩

/-- Fixture: first of two equal-owner interest groups for the tie-break
counterexample. -/
def testIGTieA : InterestGroupAuctionState Unit :=
  ⟨"owner", "A", "bidder.js", [], none, [], none⟩

/-- Fixture: second of two equal-owner interest groups for the tie-break
counterexample. -/
def testIGTieB : InterestGroupAuctionState Unit :=
  ⟨"owner", "B", "bidder.js", [], none, [], none⟩

/-- Fixture: a two-candidate auction request whose candidates tie. -/
def testRequestTie : RunAdAuctionRequest Unit := ⟨[testIGTieA, testIGTieB], testConfig, []⟩

/-- Fixture: scored bid of the first tie candidate. -/
def testScoredBidA : ScoredInterestGroupBid := ⟨"render", "owner", "A", 2, 2⟩

/-- Fixture: scored bid of the second tie candidate. -/
def testScoredBidB : ScoredInterestGroupBid := ⟨"render", "owner", "B", 2, 2⟩

/-- Fixture: repository trace for the snapshot-interleaving counterexample;
the refresher swaps the repository between the first and the second lock
acquisition. -/
def testRepoTrace : Nat → FunctionRepository Unit :=
  fun k => if k = 0 then testRepoBidderOnly else testRepoScorerOnly

/-- Fixture: a create oracle that compiles every source to the test
bidder. -/
def testCreateBidderOk : CreateOracle (BiddingFunctionInput Unit) (BiddingFunctionOutput Unit) :=
  fun _ => .ok testBidder

/-- Fixture: a create oracle that compiles every source to the test
scorer. -/
def testCreateScorerOk : CreateOracle (AdScoringFunctionInput Unit) AdScoringFunctionOutput :=
  fun _ => .ok testScorer

/-- Fixture: a create oracle on which every compile fails. -/
def testCreateBidderFail : CreateOracle (BiddingFunctionInput Unit) (BiddingFunctionOutput Unit) :=
  fun _ => .error ⟨.invalidArgument, "Unable to compile the script: boom"⟩

/-- Fixture: an HTTP oracle on which every fetch is a transport failure. -/
def testHttpNone : HttpOracle := fun _ _ => none

/-- Fixture: a configuration with a single local bidding function whose
required inline source is missing, so its fetch fails. -/
def testConfigBadFetch : Configuration := ⟨[⟨"local://f", none⟩], []⟩

/-- Fixture: a configuration with a single local bidding function carrying
an inline source. -/
def testConfigLocal : Configuration := ⟨[⟨"local://f", some "src"⟩], []⟩

section Lemmas

/-- Successful batch invocation yields exactly one output per input, in
input order. -/
theorem batchInvoke_ok_spec {Input Output : Type} (f : CompiledFunction Input Output)
    (inputs : List Input) (outputs : List Output)
    (h : BatchInvoke f inputs = .ok outputs) :
    outputs.length = inputs.length ∧
      ∀ (i : Nat) (hi : i < inputs.length) (ho : i < outputs.length),
        f (inputs.get ⟨i, hi⟩) = .ok (outputs.get ⟨i, ho⟩) := by
  induction inputs generalizing outputs with
  | nil =>
    rw [BatchInvoke] at h
    cases h
    exact ⟨rfl, fun i hi => absurd hi (Nat.not_lt_zero i)⟩
  | cons input rest ih =>
    rw [BatchInvoke] at h
    cases hf : f input with
    | error e => rw [hf] at h; exact absurd h (by simp [Bind.bind, Except.bind])
    | ok output =>
      rw [hf] at h
      cases hr : BatchInvoke f rest with
      | error e => rw [hr] at h; exact absurd h (by simp [Bind.bind, Except.bind])
      | ok outs =>
        rw [hr] at h
        simp only [Bind.bind, Except.bind, Except.ok.injEq] at h
        subst h
        obtain ⟨hlen, hget⟩ := ih outs hr
        refine ⟨by simp [hlen], ?_⟩
        intro i hi ho
        match i with
        | 0 => simpa using hf
        | Nat.succ j =>
          simpa using hget j (Nat.lt_of_succ_lt_succ hi) (Nat.lt_of_succ_lt_succ ho)

/-- Successful batch invocation on a singleton batch yields the singleton of
the one computed output. -/
theorem batchInvoke_singleton {Input Output : Type} (f : CompiledFunction Input Output)
    (input : Input) (out : Output) :
    BatchInvoke f [input] = .ok [out] ↔ f input = .ok out := by
  rw [BatchInvoke, BatchInvoke]
  cases hf : f input <;> simp [Bind.bind, Except.bind, eq_comm]

/-- Characterization of a successful `RunGenerateBidFunction`: the bidder is
present and its single invocation produced the returned output. -/
theorem runGenerateBidFunction_ok_iff {V : Type} (repo : FunctionRepository V)
    (url : String) (input : BiddingFunctionInput V) (out : BiddingFunctionOutput V) :
    RunGenerateBidFunction repo url input = .ok out ↔
      ∃ g, repo.GetBiddingFunction url = .ok g ∧ g input = .ok out := by
  rw [RunGenerateBidFunction]
  cases hg : repo.GetBiddingFunction url with
  | error e => simp [Bind.bind, Except.bind, hg]
  | ok g =>
    simp only [Bind.bind, Except.bind]
    rw [BatchInvoke, BatchInvoke]
    cases hgi : g input with
    | error e => simp [Bind.bind, Except.bind, hgi]
    | ok o => simp [Bind.bind, Except.bind, hgi, eq_comm]

/-- The bids of a split response, winner first, are exactly the sorted
list the split was computed from. -/
theorem responseBids_splitWinner (sorted_bids : List ScoredInterestGroupBid) :
    ResponseBids (SplitWinner sorted_bids) = sorted_bids := by
  cases sorted_bids with
  | nil => rfl
  | cons front rest =>
    rw [SplitWinner]
    by_cases hpos : 0 < front.desirability_score <;> simp [hpos, ResponseBids]

/-- In a list sorted non-increasingly by desirability score, the head bounds
every element. -/
theorem pairwise_desc_head_max (front : ScoredInterestGroupBid)
    (rest : List ScoredInterestGroupBid)
    (h : (front :: rest).Pairwise
      (fun a b => b.desirability_score ≤ a.desirability_score)) :
    ∀ x ∈ front :: rest, x.desirability_score ≤ front.desirability_score := by
  intro x hx
  rcases List.mem_cons.mp hx with rfl | hx
  · exact le_refl _
  · exact (List.pairwise_cons.mp h).1 x hx

/-- A failing bidder lookup or a failing bidder invocation makes
`RunGenerateBidFunction` fail. -/
theorem runGenerateBidFunction_error_cases {V : Type} (repo : FunctionRepository V)
    (url : String) (input : BiddingFunctionInput V)
    (h : (∃ e, repo.GetBiddingFunction url = .error e) ∨
      (∃ g e, repo.GetBiddingFunction url = .ok g ∧ g input = .error e)) :
    ∃ e, RunGenerateBidFunction repo url input = .error e := by
  rw [RunGenerateBidFunction]
  rcases h with ⟨e, he⟩ | ⟨g, e, hg, hgi⟩
  · exact ⟨e, by rw [he]; rfl⟩
  · refine ⟨e, ?_⟩
    rw [hg]
    simp only [Bind.bind, Except.bind]
    rw [BatchInvoke, hgi]
    rfl

/-- A failing scorer lookup makes `RunScoreAdFunction` fail with the lookup
error, independently of the input. -/
theorem runScoreAdFunction_error_of_lookup {V : Type} (repo : FunctionRepository V)
    (url : String) (input : AdScoringFunctionInput V) (e : Status)
    (h : repo.GetAdScoringFunction url = .error e) :
    RunScoreAdFunction repo url input = .error e := by
  rw [RunScoreAdFunction, h]
  rfl

/-- A failing scorer invocation makes `RunScoreAdFunction` fail with the
invocation error. -/
theorem runScoreAdFunction_error_of_invoke {V : Type} (repo : FunctionRepository V)
    (url : String) (input : AdScoringFunctionInput V)
    (g : CompiledFunction (AdScoringFunctionInput V) AdScoringFunctionOutput) (e : Status)
    (hg : repo.GetAdScoringFunction url = .ok g) (hgi : g input = .error e) :
    RunScoreAdFunction repo url input = .error e := by
  rw [RunScoreAdFunction, hg]
  simp only [Bind.bind, Except.bind]
  rw [BatchInvoke, hgi]
  rfl

/-- Step: a candidate whose owner is not an allowed buyer is skipped. -/
theorem collect_cons_not_buyer {V : Type} (repo : FunctionRepository V)
    (cfg : AuctionConfiguration V) (tss : List (String × V))
    (ig : InterestGroupAuctionState V) (rest : List (InterestGroupAuctionState V))
    (hcont : cfg.interest_group_buyers.contains ig.owner = false) :
    CollectScoredBids repo cfg tss (ig :: rest) = CollectScoredBids repo cfg tss rest := by
  rw [CollectScoredBids]
  split
  · next h => rw [hcont] at h; exact Bool.noConfusion h
  · rfl

/-- Step: an eligible candidate whose bidding fails is skipped. -/
theorem collect_cons_bid_error {V : Type} (repo : FunctionRepository V)
    (cfg : AuctionConfiguration V) (tss : List (String × V))
    (ig : InterestGroupAuctionState V) (rest : List (InterestGroupAuctionState V))
    (e : Status)
    (hcont : cfg.interest_group_buyers.contains ig.owner = true)
    (hbid : RunGenerateBidFunction repo ig.bidding_logic_url
      (CreateBiddingFunctionInput ig cfg) = .error e) :
    CollectScoredBids repo cfg tss (ig :: rest) = CollectScoredBids repo cfg tss rest := by
  rw [CollectScoredBids]
  split
  · split
    · rfl
    · next b0 heq => rw [hbid] at heq; exact Except.noConfusion heq
  · next h => exact absurd hcont h

/-- Step: an eligible candidate that bids successfully but fails scoring
fails the whole collection with the scoring error. -/
theorem collect_cons_score_error {V : Type} (repo : FunctionRepository V)
    (cfg : AuctionConfiguration V) (tss : List (String × V))
    (ig : InterestGroupAuctionState V) (rest : List (InterestGroupAuctionState V))
    (b : BiddingFunctionOutput V) (e : Status)
    (hcont : cfg.interest_group_buyers.contains ig.owner = true)
    (hbid : RunGenerateBidFunction repo ig.bidding_logic_url
      (CreateBiddingFunctionInput ig cfg) = .ok b)
    (hscore : RunScoreAdFunction repo cfg.decision_logic_url
      (CreateAdScoringInputs b cfg tss) = .error e) :
    CollectScoredBids repo cfg tss (ig :: rest) = .error e := by
  rw [CollectScoredBids]
  split
  · split
    · next e0 heq => rw [hbid] at heq; exact Except.noConfusion heq
    · next b0 heq =>
      rw [hbid] at heq
      injection heq with hb
      subst hb
      split
      · next e0 heq2 =>
        rw [hscore] at heq2
        injection heq2 with he
        rw [he]
      · next s0 heq2 => rw [hscore] at heq2; exact Except.noConfusion heq2
  · next h => exact absurd hcont h

/-- Step: an eligible candidate that bids and scores successfully prepends
its scored bid to the collection over the remaining candidates. -/
theorem collect_cons_score_ok {V : Type} (repo : FunctionRepository V)
    (cfg : AuctionConfiguration V) (tss : List (String × V))
    (ig : InterestGroupAuctionState V) (rest : List (InterestGroupAuctionState V))
    (b : BiddingFunctionOutput V) (s : AdScoringFunctionOutput)
    (hcont : cfg.interest_group_buyers.contains ig.owner = true)
    (hbid : RunGenerateBidFunction repo ig.bidding_logic_url
      (CreateBiddingFunctionInput ig cfg) = .ok b)
    (hscore : RunScoreAdFunction repo cfg.decision_logic_url
      (CreateAdScoringInputs b cfg tss) = .ok s) :
    CollectScoredBids repo cfg tss (ig :: rest) =
      (do
        let scored_bids ← CollectScoredBids repo cfg tss rest
        Except.ok (GetScoredInterestGroupBid ig b s :: scored_bids)) := by
  rw [CollectScoredBids]
  split
  · split
    · next e0 heq => rw [hbid] at heq; exact Except.noConfusion heq
    · next b0 heq =>
      rw [hbid] at heq
      injection heq with hb
      subst hb
      split
      · next e0 heq2 => rw [hscore] at heq2; exact Except.noConfusion heq2
      · next s0 heq2 =>
        rw [hscore] at heq2
        injection heq2 with hs
        rw [hs]
  · next h => exact absurd hcont h

/-- A candidate that is skipped — disallowed owner or failing bidder —
leaves the collected scored bids (and any collection error) unchanged, as
if the candidate were absent from the request. -/
theorem collect_drop {V : Type} (repo : FunctionRepository V)
    (cfg : AuctionConfiguration V) (tss : List (String × V))
    (ig : InterestGroupAuctionState V)
    (hdrop : cfg.interest_group_buyers.contains ig.owner = false ∨
      ∃ e, RunGenerateBidFunction repo ig.bidding_logic_url
        (CreateBiddingFunctionInput ig cfg) = .error e) :
    ∀ pre post, CollectScoredBids repo cfg tss (pre ++ ig :: post) =
      CollectScoredBids repo cfg tss (pre ++ post) := by
  intro pre
  induction pre with
  | nil =>
    intro post
    simp only [List.nil_append]
    rcases hdrop with hniv | ⟨e, he⟩
    · exact collect_cons_not_buyer repo cfg tss ig post hniv
    · cases hcont : cfg.interest_group_buyers.contains ig.owner with
      | false => exact collect_cons_not_buyer repo cfg tss ig post hcont
      | true => exact collect_cons_bid_error repo cfg tss ig post e hcont he
  | cons p pre ih =>
    intro post
    simp only [List.cons_append]
    cases hcont : cfg.interest_group_buyers.contains p.owner with
    | false =>
      rw [collect_cons_not_buyer repo cfg tss p _ hcont,
        collect_cons_not_buyer repo cfg tss p _ hcont, ih post]
    | true =>
      cases hpbid : RunGenerateBidFunction repo p.bidding_logic_url
          (CreateBiddingFunctionInput p cfg) with
      | error e =>
        rw [collect_cons_bid_error repo cfg tss p _ e hcont hpbid,
          collect_cons_bid_error repo cfg tss p _ e hcont hpbid, ih post]
      | ok b =>
        cases hpscore : RunScoreAdFunction repo cfg.decision_logic_url
            (CreateAdScoringInputs b cfg tss) with
        | error e =>
          rw [collect_cons_score_error repo cfg tss p _ b e hcont hpbid hpscore,
            collect_cons_score_error repo cfg tss p _ b e hcont hpbid hpscore]
        | ok sc =>
          rw [collect_cons_score_ok repo cfg tss p _ b sc hcont hpbid hpscore,
            collect_cons_score_ok repo cfg tss p _ b sc hcont hpbid hpscore, ih post]

/-- If some candidate in the list is eligible, bids successfully and then
fails scoring, the collection fails, and it fails with the scorer error of
such a candidate. -/
theorem collect_scorer_error {V : Type} (repo : FunctionRepository V)
    (cfg : AuctionConfiguration V) (tss : List (String × V)) :
    ∀ (igs : List (InterestGroupAuctionState V)) (ig : InterestGroupAuctionState V)
      (bid : BiddingFunctionOutput V) (e : Status), ig ∈ igs →
      cfg.interest_group_buyers.contains ig.owner = true →
      RunGenerateBidFunction repo ig.bidding_logic_url
        (CreateBiddingFunctionInput ig cfg) = .ok bid →
      RunScoreAdFunction repo cfg.decision_logic_url
        (CreateAdScoringInputs bid cfg tss) = .error e →
      ∃ e2 ig2 bid2, ig2 ∈ igs ∧
        cfg.interest_group_buyers.contains ig2.owner = true ∧
        RunGenerateBidFunction repo ig2.bidding_logic_url
          (CreateBiddingFunctionInput ig2 cfg) = .ok bid2 ∧
        RunScoreAdFunction repo cfg.decision_logic_url
          (CreateAdScoringInputs bid2 cfg tss) = .error e2 ∧
        CollectScoredBids repo cfg tss igs = .error e2 := by
  intro igs
  induction igs with
  | nil => intro ig bid e hin; cases hin
  | cons p rest ih =>
    intro ig bid e hin helig hbid hscore
    cases hcont : cfg.interest_group_buyers.contains p.owner with
    | false =>
      have hinr : ig ∈ rest := by
        rcases List.mem_cons.mp hin with rfl | hr
        · rw [helig] at hcont; cases hcont
        · exact hr
      obtain ⟨e2, ig2, bid2, h1, h2, h3, h4, h5⟩ := ih ig bid e hinr helig hbid hscore
      exact ⟨e2, ig2, bid2, List.mem_cons_of_mem p h1, h2, h3, h4,
        by rw [collect_cons_not_buyer repo cfg tss p rest hcont, h5]⟩
    | true =>
      cases hpbid : RunGenerateBidFunction repo p.bidding_logic_url
          (CreateBiddingFunctionInput p cfg) with
      | error e0 =>
        have hinr : ig ∈ rest := by
          rcases List.mem_cons.mp hin with rfl | hr
          · rw [hbid] at hpbid; cases hpbid
          · exact hr
        obtain ⟨e2, ig2, bid2, h1, h2, h3, h4, h5⟩ := ih ig bid e hinr helig hbid hscore
        exact ⟨e2, ig2, bid2, List.mem_cons_of_mem p h1, h2, h3, h4,
          by rw [collect_cons_bid_error repo cfg tss p rest e0 hcont hpbid, h5]⟩
      | ok pb =>
        cases hpscore : RunScoreAdFunction repo cfg.decision_logic_url
            (CreateAdScoringInputs pb cfg tss) with
        | error e0 =>
          exact ⟨e0, p, pb, List.mem_cons_self p rest, hcont, hpbid, hpscore,
            collect_cons_score_error repo cfg tss p rest pb e0 hcont hpbid hpscore⟩
        | ok ps =>
          have hinr : ig ∈ rest := by
            rcases List.mem_cons.mp hin with rfl | hr
            · rw [hbid] at hpbid
              cases hpbid
              rw [hscore] at hpscore
              cases hpscore
            · exact hr
          obtain ⟨e2, ig2, bid2, h1, h2, h3, h4, h5⟩ := ih ig bid e hinr helig hbid hscore
          refine ⟨e2, ig2, bid2, List.mem_cons_of_mem p h1, h2, h3, h4, ?_⟩
          rw [collect_cons_score_ok repo cfg tss p rest pb ps hcont hpbid hpscore, h5]
          rfl

/-- Introduction rule for the auction outcome relation: any sorted
permutation of the collected scored bids yields an admitted OK response. -/
theorem runAdAuctionOutcome_intro {V : Type} (repo : FunctionRepository V)
    (request : RunAdAuctionRequest V) (scored_bids sorted_bids : List ScoredInterestGroupBid)
    (hc : CollectScoredBids repo request.auction_configuration
      request.trusted_scoring_signals request.interest_groups = .ok scored_bids)
    (hs : CSortOutcome scored_bids sorted_bids) :
    RunAdAuctionOutcome repo request (.ok (SplitWinner sorted_bids)) := by
  rw [RunAdAuctionOutcome, hc]
  exact ⟨sorted_bids, hs, rfl⟩

/-- Lookup in an association list whose values were mapped pointwise. -/
theorem lookup_map_value {β γ : Type} (f : β → γ) (uri : String) :
    ∀ l : List (String × β),
      (l.map (fun p => (p.1, f p.2))).lookup uri = (l.lookup uri).map f := by
  intro l
  induction l with
  | nil => rfl
  | cons kv rest ih =>
    obtain ⟨k, v⟩ := kv
    by_cases hk : uri == k
    · simp [List.lookup, hk]
    · simp [List.lookup, hk, ih]

/-- Two requests over which the candidate loop collects the same result
admit the same auction outcomes. -/
theorem runAdAuctionOutcome_congr {V : Type} (repo : FunctionRepository V)
    (r1 r2 : RunAdAuctionRequest V)
    (h : CollectScoredBids repo r1.auction_configuration r1.trusted_scoring_signals
        r1.interest_groups =
      CollectScoredBids repo r2.auction_configuration r2.trusted_scoring_signals
        r2.interest_groups) :
    ∀ result, RunAdAuctionOutcome repo r1 result ↔ RunAdAuctionOutcome repo r2 result := by
  intro result
  rw [RunAdAuctionOutcome, RunAdAuctionOutcome, h]

/-- When the candidate loop fails, the only admitted auction outcome is
that error: no partial result is returned. -/
theorem runAdAuctionOutcome_error_elim {V : Type} (repo : FunctionRepository V)
    (request : RunAdAuctionRequest V) (e : Status)
    (hc : CollectScoredBids repo request.auction_configuration
      request.trusted_scoring_signals request.interest_groups = .error e) :
    ∀ result, RunAdAuctionOutcome repo request result → result = .error e := by
  intro result h
  rw [RunAdAuctionOutcome, hc] at h
  exact h

end Lemmas

/-- C10: for every compiled function and every input vector, a successful
BatchInvoke returns exactly one output per input, in input order;
consequently `RunGenerateBidFunction` (the body of ComputeBid), which
invokes BatchInvoke on a one-element batch and returns the last element of
the resulting vector, returns precisely the output computed for its single
input. -/
theorem batchInvoke_singleton_semantics {Input Output V : Type}
    (f : CompiledFunction Input Output) (inputs : List Input) (outputs : List Output)
    (repo : FunctionRepository V) (url : String) (input : BiddingFunctionInput V)
    (h : BatchInvoke f inputs = .ok outputs) :
    (outputs.length = inputs.length ∧
      ∀ (i : Nat) (hi : i < inputs.length) (ho : i < outputs.length),
        f (inputs.get ⟨i, hi⟩) = .ok (outputs.get ⟨i, ho⟩)) ∧
    ∀ out, RunGenerateBidFunction repo url input = .ok out ↔
      ∃ g, repo.GetBiddingFunction url = .ok g ∧ g input = .ok out :=
  ⟨batchInvoke_ok_spec f inputs outputs h,
   fun out => runGenerateBidFunction_ok_iff repo url input out⟩

/-- Witness for C10 at a concrete batch: a two-element batch of the
successor oracle produces the two successors. -/
theorem batchInvoke_singleton_semantics_witness :
    ([2, 3] : List Nat).length = ([1, 2] : List Nat).length :=
  (batchInvoke_singleton_semantics (V := Unit)
    (fun n => (.ok (n + 1) : Except Status Nat)) [1, 2] [2, 3]
    ⟨[], []⟩ "" ⟨none, none, none, [], none⟩ rfl).1.1

/-- C6: for every repository snapshot and every uri, `get_bidder` and
`get_scorer` are total with exactly three mutually exclusive outcomes,
determined by the state of the corresponding mapping at that key: absent
key gives a not-found error, a key present with the Unavailable marker
(the nullptr placeholder) gives an unavailable error, and a key present
with a compiled function returns that function. -/
theorem repository_lookup_trichotomy {V : Type} (repo : FunctionRepository V)
    (uri : String) :
    ((repo.bidding_functions.lookup uri = none ∧
        repo.GetBiddingFunction uri =
          .error ⟨.notFound, "Bidding function " ++ uri ++ " not found"⟩) ∨
      (repo.bidding_functions.lookup uri = some none ∧
        repo.GetBiddingFunction uri =
          .error ⟨.unavailable, "Bidding function " ++ uri ++ " is not available"⟩) ∨
      (∃ f, repo.bidding_functions.lookup uri = some (some f) ∧
        repo.GetBiddingFunction uri = .ok f)) ∧
    ((repo.ad_scoring_functions.lookup uri = none ∧
        repo.GetAdScoringFunction uri =
          .error ⟨.notFound, "Ad scoring function " ++ uri ++ " not found"⟩) ∨
      (repo.ad_scoring_functions.lookup uri = some none ∧
        repo.GetAdScoringFunction uri =
          .error ⟨.unavailable, "Ad scoring function " ++ uri ++ " is not available"⟩) ∨
      (∃ f, repo.ad_scoring_functions.lookup uri = some (some f) ∧
        repo.GetAdScoringFunction uri = .ok f)) := by
  constructor
  · cases hb : repo.bidding_functions.lookup uri with
    | none => exact Or.inl ⟨rfl, by rw [FunctionRepository.GetBiddingFunction, hb]⟩
    | some v =>
      cases v with
      | none =>
        exact Or.inr (Or.inl ⟨rfl, by rw [FunctionRepository.GetBiddingFunction, hb]⟩)
      | some f =>
        exact Or.inr (Or.inr ⟨f, rfl, by rw [FunctionRepository.GetBiddingFunction, hb]⟩)
  · cases hs : repo.ad_scoring_functions.lookup uri with
    | none => exact Or.inl ⟨rfl, by rw [FunctionRepository.GetAdScoringFunction, hs]⟩
    | some v =>
      cases v with
      | none =>
        exact Or.inr (Or.inl ⟨rfl, by rw [FunctionRepository.GetAdScoringFunction, hs]⟩)
      | some f =>
        exact Or.inr (Or.inr ⟨f, rfl, by rw [FunctionRepository.GetAdScoringFunction, hs]⟩)

/-- C8: for every invocation whose script returns a Promise, the engine
drains microtasks until the promise settles or the deadline elapses (a
promise already settled is not stepped further, and the default deadline
flag value is 50 ms); a fulfilled promise's value becomes the invocation
result, a rejected promise yields invalid-argument carrying the rejection
text, and a promise still pending once the budget of checkpoints permitted
by the deadline is exhausted yields invalid-argument whose message contains
"timed out". -/
theorem waitForPromise_contract {σ V : Type} (step : σ → σ) (view : σ → PromiseState V)
    (budget : Nat) (s : σ) :
    (view s ≠ .pending → DrainMicrotasks step view budget s = s) ∧
    BiddingFunctionAsyncWaitDefaultMillis = 50 ∧
    (∀ v, view (DrainMicrotasks step view budget s) = .fulfilled v →
      WaitForPromise step view budget s = .ok v) ∧
    (∀ text, view (DrainMicrotasks step view budget s) = .rejected text →
      WaitForPromise step view budget s =
        .error ⟨.invalidArgument, "Async javascript function failed: " ++ text⟩) ∧
    (view (DrainMicrotasks step view budget s) = .pending →
      ∃ pre post, WaitForPromise step view budget s =
        .error ⟨.invalidArgument, pre ++ "timed out" ++ post⟩) := by
  refine ⟨?_, rfl, ?_, ?_, ?_⟩
  · intro hs
    cases budget with
    | zero => rfl
    | succ n =>
      rw [DrainMicrotasks]
      cases hv : view s with
      | pending => exact absurd hv hs
      | fulfilled v => rfl
      | rejected text => rfl
  · intro v hv
    rw [WaitForPromise, hv]
  · intro text ht
    rw [WaitForPromise, ht]
  · intro hp
    refine ⟨"Async javascript function ", ".", ?_⟩
    rw [WaitForPromise, hp]
    rfl

/-- Witness for C8: a promise that fulfils after two microtask checkpoints
resolves to its value within a budget of five. -/
theorem waitForPromise_contract_witness :
    WaitForPromise (fun n => n + 1)
      (fun n => if 2 ≤ n then PromiseState.fulfilled (7 : Nat) else PromiseState.pending)
      5 0 = .ok 7 :=
  (waitForPromise_contract (fun n => n + 1)
    (fun n => if 2 ≤ n then PromiseState.fulfilled (7 : Nat) else PromiseState.pending)
    5 0).2.2.1 7 (by decide)

/-- C7: behaviour of `GetFunctionCode` for every function specification: a
uri with scheme local and an inline source returns that source verbatim and
fails invalid-argument when the inline source is missing; a uri the URL
pattern rejects, or one without a scheme, fails invalid-argument; a uri
with any other scheme is fetched by HTTP GET whose response maps 200 to the
body, 400 to invalid-argument, 401 and 403 to permission-denied, 404 to
not-found, and any other non-2xx status or transport failure to internal. -/
theorem getFunctionCode_contract (http : HttpOracle) (spec : FunctionSpecification) :
    (ParseUrl spec.uri = none →
      ∃ m, GetFunctionCode http spec = .error ⟨.invalidArgument, m⟩) ∧
    (∀ parsed, ParseUrl spec.uri = some parsed → parsed.scheme = "" →
      ∃ m, GetFunctionCode http spec = .error ⟨.invalidArgument, m⟩) ∧
    (∀ parsed, ParseUrl spec.uri = some parsed → parsed.scheme = "local" →
      (∀ src, spec.source_code = some src → GetFunctionCode http spec = .ok src) ∧
      (spec.source_code = none →
        ∃ m, GetFunctionCode http spec = .error ⟨.invalidArgument, m⟩)) ∧
    (∀ parsed, ParseUrl spec.uri = some parsed → parsed.scheme ≠ "" →
      parsed.scheme ≠ "local" →
      (http parsed.scheme_host_port parsed.path = none →
        ∃ m, GetFunctionCode http spec = .error ⟨.internalError, m⟩) ∧
      (∀ res, http parsed.scheme_host_port parsed.path = some res →
        (res.status = 200 → GetFunctionCode http spec = .ok res.body) ∧
        (res.status = 400 →
          ∃ m, GetFunctionCode http spec = .error ⟨.invalidArgument, m⟩) ∧
        (res.status = 401 ∨ res.status = 403 →
          ∃ m, GetFunctionCode http spec = .error ⟨.permissionDenied, m⟩) ∧
        (res.status = 404 → ∃ m, GetFunctionCode http spec = .error ⟨.notFound, m⟩) ∧
        (¬(200 ≤ res.status ∧ res.status < 300) → res.status ≠ 400 →
          res.status ≠ 401 → res.status ≠ 403 → res.status ≠ 404 →
          ∃ m, GetFunctionCode http spec = .error ⟨.internalError, m⟩))) := by
  refine ⟨?_, ?_, ?_, ?_⟩
  · intro hp
    refine ⟨"Not a valid URL: " ++ spec.uri, ?_⟩
    rw [GetFunctionCode, hp]
  · intro parsed hp hempty
    refine ⟨"Not a valid remote URL: " ++ spec.uri, ?_⟩
    rw [GetFunctionCode, hp]
    simp [hempty]
  · intro parsed hp hlocal
    constructor
    · intro src hsrc
      rw [GetFunctionCode, hp, hsrc]
      simp [hlocal]
    · intro hsrc
      refine ⟨"Function source code not provided for local function.", ?_⟩
      rw [GetFunctionCode, hp, hsrc]
      simp [hlocal]
  · intro parsed hp hne hnl
    have hbase : GetFunctionCode http spec =
        match http parsed.scheme_host_port parsed.path with
        | none => .error ⟨.internalError, "Unable to fetch a URL"⟩
        | some res => TranslateResponse res := by
      rw [GetFunctionCode, hp]
      simp [hne, hnl]
    constructor
    · intro hnone
      exact ⟨"Unable to fetch a URL", by rw [hbase, hnone]⟩
    · intro res hres
      rw [hbase, hres]
      refine ⟨?_, ?_, ?_, ?_, ?_⟩
      · intro h200
        simp [TranslateResponse, h200]
      · intro h400
        refine ⟨"The server returned 400 Bad Request status code.", ?_⟩
        simp [TranslateResponse, h400]
      · intro hauth
        refine ⟨"Unauthenticated or unauthorized request. HTTP status code:"
          ++ toString res.status, ?_⟩
        rcases hauth with h | h <;> simp [TranslateResponse, h]
      · intro h404
        refine ⟨"Resource at the URL was not found.", ?_⟩
        simp [TranslateResponse, h404]
      · intro hno2xx h400 h401 h403 h404
        have h200 : res.status ≠ 200 := by
          intro h
          exact hno2xx ⟨by omega, by omega⟩
        refine ⟨"Unable to fetch a URL", ?_⟩
        simp [TranslateResponse, h200, h400, h401, h403, h404]

/-- Witness for C7: a local specification with an inline source resolves to
that source, without touching the HTTP stack. -/
theorem getFunctionCode_contract_witness :
    GetFunctionCode (fun _ _ => none) ⟨"local://f", some "code"⟩ = .ok "code" :=
  ((getFunctionCode_contract (fun _ _ => none) ⟨"local://f", some "code"⟩).2.2.1
    ⟨"local://f", "local", ""⟩ (by decide) rfl).1 "code" rfl

/-- C1: for every RunAdAuction call that returns OK with scored bids
`scored_bids`: if some scored bid has a strictly positive desirability
score (equivalently, the list is non-empty with strictly positive highest
score), the winning bid is a highest-scored bid and the remaining scored
bids are exactly the losing bids; otherwise the winning bid is absent and
every scored bid (including all with score ≤ 0) appears among the losing
bids; the losing bids are sorted non-increasingly by desirability score,
and an existing winner's score bounds every loser's score. -/
theorem runAdAuction_winner_losers {V : Type} (repo : FunctionRepository V)
    (request : RunAdAuctionRequest V) (response : RunAdAuctionResponse)
    (scored_bids : List ScoredInterestGroupBid)
    (hc : CollectScoredBids repo request.auction_configuration
      request.trusted_scoring_signals request.interest_groups = .ok scored_bids)
    (h : RunAdAuctionOutcome repo request (.ok response)) :
    ((∃ b ∈ scored_bids, 0 < b.desirability_score) →
      ∃ w, response.winning_bid = some w ∧ 0 < w.desirability_score ∧ w ∈ scored_bids ∧
        (∀ b ∈ scored_bids, b.desirability_score ≤ w.desirability_score) ∧
        (w :: response.losing_bids).Perm scored_bids) ∧
    ((¬∃ b ∈ scored_bids, 0 < b.desirability_score) →
      response.winning_bid = none ∧ response.losing_bids.Perm scored_bids) ∧
    response.losing_bids.Pairwise
      (fun a b => b.desirability_score ≤ a.desirability_score) ∧
    (∀ w, response.winning_bid = some w →
      ∀ b ∈ response.losing_bids, b.desirability_score ≤ w.desirability_score) := by
  rw [RunAdAuctionOutcome, hc] at h
  obtain ⟨sorted, ⟨hperm, hsorted⟩, heq⟩ := h
  injection heq with heq
  subst heq
  cases sorted with
  | nil =>
    have hempty : scored_bids = [] := hperm.eq_nil
    subst hempty
    refine ⟨?_, ?_, List.Pairwise.nil, ?_⟩
    · rintro ⟨b, hb, _⟩
      cases hb
    · exact fun _ => ⟨rfl, List.Perm.refl []⟩
    · intro w hw
      exact Option.noConfusion hw
  | cons front rest =>
    have hmax := pairwise_desc_head_max front rest hsorted
    by_cases hpos : 0 < front.desirability_score
    · have hsplit : SplitWinner (front :: rest) = ⟨some front, rest⟩ := by
        rw [SplitWinner]
        simp [hpos]
      rw [hsplit]
      refine ⟨?_, ?_, ?_, ?_⟩
      · intro _
        exact ⟨front, rfl, hpos, hperm.symm.subset (List.mem_cons_self front rest),
          fun b hb => hmax b (hperm.subset hb), hperm.symm⟩
      · intro hne
        exact absurd ⟨front, hperm.symm.subset (List.mem_cons_self front rest), hpos⟩ hne
      · exact (List.pairwise_cons.mp hsorted).2
      · intro w hw b hb
        injection hw with hw
        subst hw
        exact (List.pairwise_cons.mp hsorted).1 b hb
    · have hsplit : SplitWinner (front :: rest) = ⟨none, front :: rest⟩ := by
        rw [SplitWinner]
        simp [hpos]
      rw [hsplit]
      refine ⟨?_, ?_, hsorted, ?_⟩
      · rintro ⟨b, hb, hbpos⟩
        exact absurd (lt_of_lt_of_le hbpos (hmax b (hperm.subset hb))) hpos
      · intro _
        exact ⟨rfl, hperm.symm⟩
      · intro w hw
        exact Option.noConfusion hw

/-- Witness for C1: the one-candidate auction fixture returns OK with its
single positively scored bid as the winner and no losers. -/
theorem runAdAuction_winner_losers_witness :
    ∃ w, (RunAdAuctionResponse.mk (some testScoredBid) []).winning_bid = some w ∧
      0 < w.desirability_score ∧ w ∈ [testScoredBid] ∧
      (∀ b ∈ [testScoredBid], b.desirability_score ≤ w.desirability_score) ∧
      (w :: (RunAdAuctionResponse.mk (some testScoredBid) []).losing_bids).Perm
        [testScoredBid] :=
  (runAdAuction_winner_losers testRepo testRequest ⟨some testScoredBid, []⟩
    [testScoredBid] (by decide)
    (by
      have h := runAdAuctionOutcome_intro testRepo testRequest [testScoredBid]
        [testScoredBid] (by decide) ⟨List.Perm.refl _, List.pairwise_singleton _ _⟩
      have hs : SplitWinner [testScoredBid] = ⟨some testScoredBid, []⟩ := by decide
      rw [hs] at h
      exact h)).1 ⟨testScoredBid, by decide, by decide⟩

/-- C2 (amended): for every RunAdAuction call that returns OK, the response
bids (winner first, then losers) are a permutation of the scored bids
sorted non-increasingly by desirability score — so a strictly
higher-scored bid always precedes a lower-scored one — but the relative
order of bids with equal scores is unspecified: `absl::c_sort` is
`std::sort`, which is not stable, so the claimed insertion-order tie-break
is not guaranteed. -/
theorem runAdAuction_sorted_desc {V : Type} (repo : FunctionRepository V)
    (request : RunAdAuctionRequest V) (response : RunAdAuctionResponse)
    (scored_bids : List ScoredInterestGroupBid)
    (hc : CollectScoredBids repo request.auction_configuration
      request.trusted_scoring_signals request.interest_groups = .ok scored_bids)
    (h : RunAdAuctionOutcome repo request (.ok response)) :
    (ResponseBids response).Perm scored_bids ∧
    (ResponseBids response).Pairwise
      (fun a b => b.desirability_score ≤ a.desirability_score) := by
  rw [RunAdAuctionOutcome, hc] at h
  obtain ⟨sorted, ⟨hperm, hsorted⟩, heq⟩ := h
  injection heq with heq
  subst heq
  rw [responseBids_splitWinner]
  exact ⟨hperm.symm, hsorted⟩

/-- Witness for C2's amended theorem at the one-candidate fixture. -/
theorem runAdAuction_sorted_desc_witness :
    (ResponseBids ⟨some testScoredBid, []⟩).Perm [testScoredBid] :=
  (runAdAuction_sorted_desc testRepo testRequest ⟨some testScoredBid, []⟩
    [testScoredBid] (by decide)
    (by
      have h := runAdAuctionOutcome_intro testRepo testRequest [testScoredBid]
        [testScoredBid] (by decide) ⟨List.Perm.refl _, List.pairwise_singleton _ _⟩
      have hs : SplitWinner [testScoredBid] = ⟨some testScoredBid, []⟩ := by decide
      rw [hs] at h
      exact h)).1

/-- C2 counterexample: on a request with two tying candidates (input order
A then B, equal positive desirability scores), the behaviour of the code
admits the OK response ranking B's bid ahead of A's — the bid whose
interest group appeared later in the input order appears earlier in the
response — because `absl::c_sort` (std::sort) leaves the order of
equal-score bids unspecified; so the claimed stable tie-break does not hold
of the code. -/
theorem runAdAuction_stable_tiebreak_counterexample :
    testRequestTie.interest_groups.map (fun g => g.name) = ["A", "B"] ∧
    CollectScoredBids testRepo testRequestTie.auction_configuration
      testRequestTie.trusted_scoring_signals testRequestTie.interest_groups =
      .ok [testScoredBidA, testScoredBidB] ∧
    testScoredBidA.interest_group_name = "A" ∧
    testScoredBidB.interest_group_name = "B" ∧
    testScoredBidA.desirability_score = testScoredBidB.desirability_score ∧
    RunAdAuctionOutcome testRepo testRequestTie
      (.ok ⟨some testScoredBidB, [testScoredBidA]⟩) ∧
    ResponseBids ⟨some testScoredBidB, [testScoredBidA]⟩ =
      [testScoredBidB, testScoredBidA] := by
  refine ⟨by decide, by decide, rfl, rfl, by decide, ?_, by decide⟩
  have h := runAdAuctionOutcome_intro testRepo testRequestTie
    [testScoredBidA, testScoredBidB] [testScoredBidB, testScoredBidA] (by decide)
    ⟨List.Perm.swap testScoredBidB testScoredBidA [],
      List.pairwise_pair.mpr (by decide)⟩
  have hs : SplitWinner [testScoredBidB, testScoredBidA] =
      ⟨some testScoredBidB, [testScoredBidA]⟩ := by decide
  rw [hs] at h
  exact h

/-- C3: a candidate whose owner is outside `interest_group_buyers`, or
whose bidder lookup fails (not-found or unavailable), or whose bidder
invocation fails, is dropped silently: the candidate loop over the request
with the candidate collects exactly what it collects without the
candidate, so the candidate appears neither as winning bid nor among
losing bids, and the admitted auction outcomes — including whether the
call errors — are unchanged. -/
theorem runAdAuction_dropped_candidate_silent {V : Type} (repo : FunctionRepository V)
    (cfg : AuctionConfiguration V) (tss : List (String × V))
    (ig : InterestGroupAuctionState V)
    (pre post : List (InterestGroupAuctionState V))
    (hdrop : cfg.interest_group_buyers.contains ig.owner = false ∨
      (∃ e, repo.GetBiddingFunction ig.bidding_logic_url = .error e) ∨
      (∃ g e, repo.GetBiddingFunction ig.bidding_logic_url = .ok g ∧
        g (CreateBiddingFunctionInput ig cfg) = .error e)) :
    CollectScoredBids repo cfg tss (pre ++ ig :: post) =
      CollectScoredBids repo cfg tss (pre ++ post) ∧
    ∀ result, RunAdAuctionOutcome repo ⟨pre ++ ig :: post, cfg, tss⟩ result ↔
      RunAdAuctionOutcome repo ⟨pre ++ post, cfg, tss⟩ result := by
  have hdrop2 : cfg.interest_group_buyers.contains ig.owner = false ∨
      ∃ e, RunGenerateBidFunction repo ig.bidding_logic_url
        (CreateBiddingFunctionInput ig cfg) = .error e := by
    rcases hdrop with h | h | h
    · exact Or.inl h
    · exact Or.inr (runGenerateBidFunction_error_cases repo _ _ (Or.inl h))
    · exact Or.inr (runGenerateBidFunction_error_cases repo _ _ (Or.inr h))
  have hcoll := collect_drop repo cfg tss ig hdrop2 pre post
  exact ⟨hcoll, runAdAuctionOutcome_congr repo ⟨pre ++ ig :: post, cfg, tss⟩
    ⟨pre ++ post, cfg, tss⟩ hcoll⟩

/-- Witness for C3: a candidate with a disallowed owner leaves the
collected bids of the fixture auction unchanged. -/
theorem runAdAuction_dropped_candidate_silent_witness :
    CollectScoredBids testRepo testConfig []
      ([] ++ testIGOtherOwner :: [testIG]) =
    CollectScoredBids testRepo testConfig [] ([] ++ [testIG]) :=
  (runAdAuction_dropped_candidate_silent testRepo testConfig [] testIGOtherOwner
    [] [testIG] (Or.inl (by decide))).1

/-- C4: for a candidate that is eligible and produced a successful bid, a
scorer lookup failure (in particular not-found for
`auction_config.decision_logic_url`) fails the entire auction with exactly
the lookup error, and a scorer invocation failure fails the entire auction
with the scorer error of an eligible successfully-bidding candidate; in
either case the only admitted outcome is that error — no partial auction
result is returned. -/
theorem runAdAuction_scorer_failure_fails_auction {V : Type}
    (repo : FunctionRepository V) (cfg : AuctionConfiguration V)
    (tss : List (String × V)) (igs : List (InterestGroupAuctionState V))
    (ig : InterestGroupAuctionState V) (bid : BiddingFunctionOutput V)
    (hin : ig ∈ igs)
    (helig : cfg.interest_group_buyers.contains ig.owner = true)
    (hbid : RunGenerateBidFunction repo ig.bidding_logic_url
      (CreateBiddingFunctionInput ig cfg) = .ok bid) :
    (∀ err, repo.GetAdScoringFunction cfg.decision_logic_url = .error err →
      CollectScoredBids repo cfg tss igs = .error err ∧
      ∀ result, RunAdAuctionOutcome repo ⟨igs, cfg, tss⟩ result →
        result = .error err) ∧
    (∀ e, RunScoreAdFunction repo cfg.decision_logic_url
        (CreateAdScoringInputs bid cfg tss) = .error e →
      ∃ e2 ig2 bid2, ig2 ∈ igs ∧
        cfg.interest_group_buyers.contains ig2.owner = true ∧
        RunGenerateBidFunction repo ig2.bidding_logic_url
          (CreateBiddingFunctionInput ig2 cfg) = .ok bid2 ∧
        RunScoreAdFunction repo cfg.decision_logic_url
          (CreateAdScoringInputs bid2 cfg tss) = .error e2 ∧
        CollectScoredBids repo cfg tss igs = .error e2 ∧
        ∀ result, RunAdAuctionOutcome repo ⟨igs, cfg, tss⟩ result →
          result = .error e2) := by
  constructor
  · intro err herr
    have hscoreErr := runScoreAdFunction_error_of_lookup repo cfg.decision_logic_url
      (CreateAdScoringInputs bid cfg tss) err herr
    obtain ⟨e2, ig2, bid2, h1, h2, h3, h4, h5⟩ :=
      collect_scorer_error repo cfg tss igs ig bid err hin helig hbid hscoreErr
    have h4b := runScoreAdFunction_error_of_lookup repo cfg.decision_logic_url
      (CreateAdScoringInputs bid2 cfg tss) err herr
    rw [h4b] at h4
    injection h4 with h4
    subst h4
    exact ⟨h5, runAdAuctionOutcome_error_elim repo ⟨igs, cfg, tss⟩ err h5⟩
  · intro e he
    obtain ⟨e2, ig2, bid2, h1, h2, h3, h4, h5⟩ :=
      collect_scorer_error repo cfg tss igs ig bid e hin helig hbid he
    exact ⟨e2, ig2, bid2, h1, h2, h3, h4, h5,
      runAdAuctionOutcome_error_elim repo ⟨igs, cfg, tss⟩ e2 h5⟩

/-- Witness for C4: with the scorer absent from the repository, the
fixture auction fails not-found as a whole. -/
theorem runAdAuction_scorer_failure_fails_auction_witness :
    CollectScoredBids testRepoBidderOnly testConfig [] [testIG] =
      .error ⟨.notFound, "Ad scoring function scorer.js not found"⟩ :=
  ((runAdAuction_scorer_failure_fails_auction testRepoBidderOnly testConfig []
    [testIG] testIG ⟨none, 2, "render"⟩ (by decide) (by decide) (by decide)).1
    ⟨.notFound, "Ad scoring function scorer.js not found"⟩ rfl).1

/-- C9 (amended): each bidder lookup and each scorer lookup within a
RunAdAuction acquires the reader lock separately and reads the repository
pointer current at that acquisition, so a request does not in general
observe a single snapshot; each individual lookup observes one consistent
snapshot, and whenever no refresh interleaves (the published repository is
the same at every acquisition) the interleaved candidate loop coincides
with the single-snapshot loop from any starting acquisition index. -/
theorem auction_constant_snapshot_agrees {V : Type} (repo : FunctionRepository V)
    (cfg : AuctionConfiguration V) (tss : List (String × V)) :
    ∀ (igs : List (InterestGroupAuctionState V)) (k : Nat),
      CollectScoredBidsAt (fun _ => repo) cfg tss igs k =
        CollectScoredBids repo cfg tss igs := by
  intro igs
  induction igs with
  | nil => intro k; rfl
  | cons ig rest ih =>
    intro k
    rw [CollectScoredBidsAt, CollectScoredBids]
    simp only [ih]

/-- C9 counterexample: with a refresh publishing a new snapshot between the
bidder lock acquisition and the scorer lock acquisition, a one-candidate
RunAdAuction observes two different snapshots and collects a scored bid
that the snapshot observed at entry cannot produce: under the entry
snapshot alone the call fails not-found on the scorer, and under the new
snapshot alone the candidate is dropped and no bid is collected. -/
theorem auction_snapshot_counterexample :
    testRepoTrace 0 = testRepoBidderOnly ∧
    CollectScoredBidsAt testRepoTrace testConfig [] [testIG] 0 =
      .ok [testScoredBid] ∧
    CollectScoredBids testRepoBidderOnly testConfig [] [testIG] =
      .error ⟨.notFound, "Ad scoring function scorer.js not found"⟩ ∧
    CollectScoredBids testRepoScorerOnly testConfig [] [testIG] = .ok [] :=
  ⟨rfl, by decide, by decide, by decide⟩

/-- C5 counterexample: a failure affecting one individual configured script
— the fetch of `local://f`, whose local uri lacks the required inline
source — aborts the whole rebuild instead of degrading to an Unavailable
entry: `CreateFunctionRepository` returns the fetch error, the refresher
retains the previous snapshot (here one not containing the uri), and the
uri keeps resolving to not-found, not to unavailable. -/
theorem refresh_fetch_failure_counterexample :
    CreateFunctionRepository testCreateBidderOk testCreateScorerOk testHttpNone
      testConfigBadFetch =
      .error ⟨.invalidArgument,
        "Function source code not provided for local function."⟩ ∧
    RefreshFunctionRepository testCreateBidderOk testCreateScorerOk testHttpNone
      testConfigBadFetch testRepoEmpty = testRepoEmpty ∧
    (RefreshFunctionRepository testCreateBidderOk testCreateScorerOk testHttpNone
      testConfigBadFetch testRepoEmpty).GetBiddingFunction "local://f" =
      .error ⟨.notFound, "Bidding function " ++ "local://f" ++ " not found"⟩ :=
  ⟨rfl, rfl, rfl⟩

/-- C5 (amended): on any top-level failure of the rebuild — which includes
a fetch failure of any individual configured script, and duplicate URIs —
the previously published repository is retained unchanged; when every
configured source fetches successfully, the rebuild publishes the new
snapshot, and a compile failure of an individual script does not abort the
rebuild but yields an Unavailable entry for that uri in the newly
published snapshot. -/
theorem refresh_retains_or_marks_unavailable {V : Type}
    (createBidder : CreateOracle (BiddingFunctionInput V) (BiddingFunctionOutput V))
    (createScorer : CreateOracle (AdScoringFunctionInput V) AdScoringFunctionOutput)
    (http : HttpOracle) (cfg : Configuration) (current : FunctionRepository V) :
    (∀ e, CreateFunctionRepository createBidder createScorer http cfg = .error e →
      RefreshFunctionRepository createBidder createScorer http cfg current = current) ∧
    (∀ bcodes scodes,
      GetFunctionSourceCodes http cfg.bidding_function_specs = .ok bcodes →
      GetFunctionSourceCodes http cfg.ad_scoring_function_specs = .ok scodes →
      RefreshFunctionRepository createBidder createScorer http cfg current =
        ⟨bcodes.map (fun p => (p.1, (createBidder p.2).toOption)),
          scodes.map (fun p => (p.1, (createScorer p.2).toOption))⟩ ∧
      (∀ uri src e, bcodes.lookup uri = some src → createBidder src = .error e →
        (RefreshFunctionRepository createBidder createScorer http cfg
            current).GetBiddingFunction uri =
          .error ⟨.unavailable, "Bidding function " ++ uri ++ " is not available"⟩) ∧
      (∀ uri src e, scodes.lookup uri = some src → createScorer src = .error e →
        (RefreshFunctionRepository createBidder createScorer http cfg
            current).GetAdScoringFunction uri =
          .error ⟨.unavailable,
            "Ad scoring function " ++ uri ++ " is not available"⟩)) := by
  constructor
  · intro e he
    rw [RefreshFunctionRepository, he]
  · intro bcodes scodes hb hs
    have hcreate : CreateFunctionRepository createBidder createScorer http cfg =
        .ok ⟨bcodes.map (fun p => (p.1, (createBidder p.2).toOption)),
          scodes.map (fun p => (p.1, (createScorer p.2).toOption))⟩ := by
      rw [CreateFunctionRepository, hb]
      simp only [Bind.bind, Except.bind]
      rw [hs]
    have hrefresh : RefreshFunctionRepository createBidder createScorer http cfg
        current =
        ⟨bcodes.map (fun p => (p.1, (createBidder p.2).toOption)),
          scodes.map (fun p => (p.1, (createScorer p.2).toOption))⟩ := by
      rw [RefreshFunctionRepository, hcreate]
    refine ⟨hrefresh, ?_, ?_⟩
    · intro uri src e hlkp hfail
      rw [hrefresh, FunctionRepository.GetBiddingFunction]
      rw [lookup_map_value (fun s => (createBidder s).toOption) uri bcodes, hlkp]
      simp only [Option.map]
      rw [hfail]
      rfl
    · intro uri src e hlkp hfail
      rw [hrefresh, FunctionRepository.GetAdScoringFunction]
      rw [lookup_map_value (fun s => (createScorer s).toOption) uri scodes, hlkp]
      simp only [Option.map]
      rw [hfail]
      rfl

/-- Witness for C5's amended theorem: a local script that fetches but fails
to compile is published as Unavailable by the refresh. -/
theorem refresh_retains_or_marks_unavailable_witness :
    (RefreshFunctionRepository testCreateBidderFail testCreateScorerOk testHttpNone
      testConfigLocal testRepoEmpty).GetBiddingFunction "local://f" =
      .error ⟨.unavailable, "Bidding function " ++ "local://f" ++ " is not available"⟩ :=
  ((refresh_retains_or_marks_unavailable testCreateBidderFail testCreateScorerOk
    testHttpNone testConfigLocal testRepoEmpty).2 [("local://f", "src")] []
    (by decide) (by decide)).2.1 "local://f" "src"
    ⟨.invalidArgument, "Unable to compile the script: boom"⟩ (by decide) rfl

end Aviary
